import Mathlib

/-!
Verification of the mpesaView statement-ingestion core against its
specification.  The Python sources (`src/utils/parser.py`,
`src/utils/analyzer.py`) are shallowly embedded below: pandas cells become
`Option String` (with `none` playing the role of NaN/None), currency values
become `ℚ`, and timestamps are represented by their calendar-month index
(the only granularity the analytics under verification observe, since
`resample('M')` buckets rows by calendar month).
-/

/-- A table cell: `none` models a pandas NaN / Python None. -/
abbrev Cell := Option String

/-! ## Character/string helpers

Python string primitives (`str.lower`, `in`, `str.replace(c, '')`,
`str.strip`, `str.split(',')`) are embedded as structurally recursive
functions over `List Char` so that every definition is executable and
kernel-reducible.  `lowerChar` models `str.lower` on the ASCII range, the
only range the keyword rules and header tokens exercise. -/

def lowerChar (c : Char) : Char :=
  if 'A' ≤ c ∧ c ≤ 'Z' then Char.ofNat (c.toNat + 32) else c

def lowerStr (s : String) : String :=
  String.mk (s.toList.map lowerChar)

/-- `leadsWith p l` : `p` is an initial segment of `l`. -/
def leadsWith : List Char → List Char → Bool
  | [], _ => true
  | _ :: _, [] => false
  | a :: p, b :: l => a = b && leadsWith p l

/-- `subseg p l` : `p` occurs contiguously inside `l` (Python `in`). -/
def subseg (p : List Char) : List Char → Bool
  | [] => p.isEmpty
  | b :: l => leadsWith p (b :: l) || subseg p l

/-- Python substring test `pat in s`. -/
def strContains (s pat : String) : Bool :=
  subseg pat.toList s.toList

/-- Python `str.replace(c, '')` for a single-character pattern: removes
every occurrence of `c`. -/
def eraseChar (c : Char) (s : String) : String :=
  String.mk (s.toList.filter (fun a => a ≠ c))

/-- Python `str.replace('\n', ' ')`. -/
def newlineToSpace (s : String) : String :=
  String.mk (s.toList.map (fun a => if a = '\n' then ' ' else a))

/-- Python `str.strip()` (whitespace at both ends). -/
def stripStr (s : String) : String :=
  String.mk (((s.toList.dropWhile Char.isWhitespace).reverse.dropWhile
    Char.isWhitespace).reverse)

/-- Python `str.split(',')` restricted to splitting a CSV line on commas
(basic `pd.read_csv` field splitting; quoting is not used by the inputs
under verification). -/
def splitComma : List Char → List (List Char)
  | [] => [[]]
  | c :: t =>
    if c = ',' then [] :: splitComma t
    else
      match splitComma t with
      | [] => [[c]]
      | h :: r => (c :: h) :: r

def splitLine (s : String) : List String :=
  (splitComma s.toList).map String.mk

/-! ## `float()` and `clean_currency` (src/utils/parser.py lines 156-172)

`parseFloat` models Python `float()` on optionally signed decimal
literals — `"123"`, `"-123.45"`, `"+.5"`, `"5."` — which is the fragment
currency cells exercise (exponents, `inf`/`nan` and underscore separators
do not appear in statement cells, and `inf`/`nan` have no image in `ℚ`). -/

def digitsVal (ds : List Char) : Nat :=
  ds.foldl (fun n d => 10 * n + (d.toNat - 48)) 0

/-- The unsigned part of a float literal: digits, an optional dot, more
digits, with at least one digit overall. -/
def parseBody (body : List Char) : Option ℚ :=
  match body.dropWhile Char.isDigit with
  | [] =>
    if (body.takeWhile Char.isDigit).isEmpty then none
    else some (digitsVal (body.takeWhile Char.isDigit) : ℚ)
  | '.' :: frac =>
    if frac.all Char.isDigit &&
        !((body.takeWhile Char.isDigit).isEmpty && frac.isEmpty) then
      some ((digitsVal (body.takeWhile Char.isDigit) : ℚ) +
        (digitsVal frac : ℚ) / (10 ^ frac.length : ℚ))
    else none
  | _ => none

/-- An optional single leading sign, then the unsigned body. -/
def parseSigned (cs : List Char) : Option ℚ :=
  match cs with
  | [] => parseBody []
  | c :: t =>
    if c = '-' then (parseBody t).map (fun q => -q)
    else if c = '+' then parseBody t
    else parseBody (c :: t)

def parseFloat (s : String) : Option ℚ :=
  parseSigned s.toList

/-- `clean_currency` from `_clean_data`: NaN or empty string become `0.0`;
otherwise commas, spaces and minus signs are removed and the remainder is
parsed, with parse failure coerced to `0.0`. -/
def clean_currency (v : Cell) : ℚ :=
  match v with
  | none => 0
  | some s =>
    if s = "" then 0
    else
      match parseFloat (eraseChar '-' (eraseChar ' ' (eraseChar ',' s))) with
      | some q => q
      | none => 0

/-! ## Categorizer (src/utils/parser.py lines 191-205) -/

/-- `MpesaParser._categorize_transaction`: the `str(details)` coercion is
applied by the caller in `_clean_data` (a NaN cell stringifies to `"nan"`). -/
def categorize_transaction (details : String) : String :=
  let d := lowerStr details
  if strContains d "airtime" then "Airtime"
  else if strContains d "pay bill" || strContains d "paybill" then "Pay Bill"
  else if strContains d "buy goods" then "Buy Goods"
  else if strContains d "customer transfer" || strContains d "sent to" then "Sent to M-Pesa"
  else if strContains d "received from" then "Received M-Pesa"
  else if strContains d "withdraw" then "Withdraw Cash"
  else if strContains d "deposit" then "Deposit"
  else if strContains d "loan" || strContains d "fuliza" || strContains d "m-shwari" then "Loan"
  else "Other"

/-- Modelled from the spec (§4.3): the categorizer as an explicit ordered
rule list evaluated by first match, used to compare the source categorizer
against the spec's description. -/
def specRules : List (List String × String) :=
  [ (["airtime"], "Airtime")
  , (["pay bill", "paybill"], "Pay Bill")
  , (["buy goods"], "Buy Goods")
  , (["customer transfer", "sent to"], "Sent to M-Pesa")
  , (["received from"], "Received M-Pesa")
  , (["withdraw"], "Withdraw Cash")
  , (["deposit"], "Deposit")
  , (["loan", "fuliza", "m-shwari"], "Loan") ]

def firstMatch (d : String) : List (List String × String) → String
  | [] => "Other"
  | r :: rs => if r.1.any (fun k => strContains d k) then r.2 else firstMatch d rs

def specCategorize (details : String) : String :=
  firstMatch (lowerStr details) specRules

/-! ## Raw tables and `_clean_data` (src/utils/parser.py lines 127-189) -/

/-- A raw extracted table: ordered header strings and ordered rows of
cells.  Duplicate header strings are representable, exactly as in a pandas
DataFrame after a non-injective `rename`. -/
structure RawTable where
  headers : List String
  rows : List (List Cell)
deriving DecidableEq

/-- One canonical ledger record (a row of the cleaned DataFrame). -/
structure Transaction where
  receiptNo : Cell
  completionTime : Option Nat
  details : Cell
  transactionStatus : Cell
  paidIn : ℚ
  withdrawn : ℚ
  balance : ℚ
  amount : ℚ
  category : String
deriving DecidableEq

/-- Header normalization at line 132: `c.strip().replace('\n', ' ')`. -/
def normHeader (h : String) : String :=
  newlineToSpace (stripStr h)

/-- The `col_map` substring rules (lines 138-147); a header matching no
rule is left unchanged by `df.rename`. -/
def mapHeader (c : String) : String :=
  let l := lowerStr c
  if strContains l "receipt" then "Receipt No."
  else if strContains l "time" || strContains l "date" then "Completion Time"
  else if strContains l "details" then "Details"
  else if strContains l "status" then "Transaction Status"
  else if strContains l "paid in" then "Paid In"
  else if strContains l "withdrawn" then "Withdrawn"
  else if strContains l "balance" then "Balance"
  else c

/-- Headers after normalization (line 132) and renaming (line 149).
`df.rename` relabels every column independently: two source columns
mapping to the same canonical name both survive, with a duplicated
label. -/
def cleanHeaders (hs : List String) : List String :=
  (hs.map normHeader).map mapHeader

/-- Cell of `row` in the column labeled `h` (first occurrence, the column
a unique label addresses); `none` when the label is absent. -/
def cellAt (hs : List String) (row : List Cell) (h : String) : Cell :=
  match hs.findIdx? (fun c => c == h) with
  | some i => row.getD i none
  | none => none

/-- The receipt filter (lines 151-154): drop NaN `Receipt No.` cells, then
keep rows whose receipt string has length > 5. -/
def keepRow (hs : List String) (row : List Cell) : Bool :=
  match cellAt hs row "Receipt No." with
  | some s => s.length > 5
  | none => false

/-- Lines 167-187 applied to one retained row: currency cleaning with a
`0.0` default for missing columns, the signed `Amount`, lenient timestamp
parsing (`toDt` stands for the external `pd.to_datetime(·, errors='coerce')`
collaborator, returning the row's calendar-month index or `none`), and
categorization of `str(details)` (NaN stringifies to `"nan"`). -/
def mkTransaction (toDt : Cell → Option Nat) (hs : List String)
    (row : List Cell) : Transaction :=
  let paidIn := if hs.contains "Paid In" then clean_currency (cellAt hs row "Paid In") else 0
  let withdrawn := if hs.contains "Withdrawn" then clean_currency (cellAt hs row "Withdrawn") else 0
  let balance := if hs.contains "Balance" then clean_currency (cellAt hs row "Balance") else 0
  let details := cellAt hs row "Details"
  { receiptNo := if hs.contains "Receipt No." then cellAt hs row "Receipt No." else none
    completionTime :=
      if hs.contains "Completion Time" then toDt (cellAt hs row "Completion Time") else none
    details := details
    transactionStatus := cellAt hs row "Transaction Status"
    paidIn := paidIn
    withdrawn := withdrawn
    balance := balance
    amount := if paidIn > 0 then paidIn else -withdrawn
    category :=
      categorize_transaction (match details with | some s => s | none => "nan") }

/-- `MpesaParser._clean_data`.  The lookup of `df['Details']` at line 187
raises a `KeyError` when no Details column was mapped, which propagates as
a structural failure; every other step is row-level and total. -/
def clean_data (toDt : Cell → Option Nat) (t : RawTable) :
    Except String (List Transaction) :=
  if (cleanHeaders t.headers).contains "Details" then
    .ok ((if (cleanHeaders t.headers).contains "Receipt No." then
            t.rows.filter (keepRow (cleanHeaders t.headers))
          else t.rows).map (mkTransaction toDt (cleanHeaders t.headers)))
  else
    .error "'Details'"

/-! ## Ingestion entry points (src/utils/parser.py lines 14-125)

Python exceptions are modelled as `Except String`, carrying `str(e)` of the
raised exception; each `except` clause that re-raises with a message prefix
becomes `wrapErr`. -/

def wrapErr (p : String) : Except String (List Transaction) →
    Except String (List Transaction)
  | .ok l => .ok l
  | .error e => .error (p ++ e)

def REQUIRED_COLUMNS : List String :=
  ["Receipt No.", "Completion Time", "Details", "Transaction Status",
   "Paid In", "Withdrawn", "Balance"]

/-- `pd.read_csv(file, skiprows=k)`: the first remaining line is the
header, later lines are data rows; an empty field reads as NaN. -/
def read_csv (lines : List String) (skiprows : Nat) : RawTable :=
  match lines.drop skiprows with
  | [] => { headers := [], rows := [] }
  | h :: rest =>
    { headers := splitLine h
      rows := rest.map (fun ln =>
        (splitLine ln).map (fun f => if f = "" then none else some f)) }

/-- Header-row search over the first 20 text lines (lines 50-54). -/
def findHeaderRow (lines : List String) : Option Nat :=
  (lines.take 20).findIdx? (fun ln =>
    strContains ln "Receipt No." && strContains ln "Completion Time")

/-- `MpesaParser.parse_csv`: its `except` clause wraps any failure,
including the header-search `ValueError` it raises itself, with
`"CSV Parsing failed: "`. -/
def parse_csv (toDt : Cell → Option Nat) (lines : List String) :
    Except String (List Transaction) :=
  wrapErr "CSV Parsing failed: "
    (let df := read_csv lines 0
     if REQUIRED_COLUMNS.all (fun c => df.headers.contains c) then
       clean_data toDt df
     else
       match findHeaderRow lines with
       | some i => clean_data toDt (read_csv lines i)
       | none => .error "Could not likely find M-Pesa transaction headers in CSV.")

/-- A pdfplumber cell grid: `page.extract_tables()` returns these. -/
abbrev Grid := List (List Cell)

/-- PDF header-cell cleaning at line 102: `str(h).replace('\n',' ').strip()`
(`str(None)` is `"None"`). -/
def pdfHeaderCell (c : Cell) : String :=
  match c with
  | some s => stripStr (newlineToSpace s)
  | none => "None"

/-- `" ".join(str(x) for x in row if x)`: truthy cells joined by spaces. -/
def joinCells (row : List Cell) : String :=
  let parts := row.filterMap (fun c =>
    match c with
    | some s => if s = "" then none else some s
    | none => none)
  match parts with
  | [] => ""
  | p :: ps => ps.foldl (fun acc x => acc ++ " " ++ x) p

/-- Header-row detection inside one grid (lines 90-96). -/
def gridHeaderIdx (g : Grid) : Option Nat :=
  g.findIdx? (fun row =>
    let rs := lowerStr (joinCells row)
    strContains rs "receipt" && strContains rs "details" && strContains rs "balance")

/-- One grid to a labeled table (lines 98-114): rows after the header row
become data; a grid with a header but no data rows contributes nothing
(`if not data.empty`). -/
def extractTable (g : Grid) : Option RawTable :=
  match gridHeaderIdx g with
  | none => none
  | some i =>
    let data := g.drop (i + 1)
    if data.isEmpty then none
    else some { headers := (g.getD i []).map pdfHeaderCell, rows := data }

/-- `pd.concat(transactions, ignore_index=True)`: outer join on column
labels in first-seen order; rows keep their own values and read NaN for
labels their table lacks. -/
def concatTables (ts : List RawTable) : RawTable :=
  let hs := ts.foldl (fun acc t =>
    acc ++ t.headers.filter (fun h => !acc.contains h)) []
  { headers := hs
    rows := (ts.map (fun t =>
      t.rows.map (fun row => hs.map (cellAt t.headers row)))).flatten }

/-- `MpesaParser.parse_pdf`: a document whose grids yield no header-bearing
table raises `"No transaction tables found in PDF."`; the `except` clause
wraps every failure with `"PDF Parsing failed: "`. -/
def parse_pdf (toDt : Cell → Option Nat) (pages : List (List Grid)) :
    Except String (List Transaction) :=
  wrapErr "PDF Parsing failed: "
    (let tables := (pages.map (fun pg => pg.filterMap extractTable)).flatten
     if tables.isEmpty then .error "No transaction tables found in PDF."
     else clean_data toDt (concatTables tables))

/-- An uploaded file object together with what its bytes actually hold. -/
inductive FileObj where
  | csvLines (lines : List String)
  | pdfPages (pages : List (List Grid))

/-- `MpesaParser.parse_file`: dispatch on the lower-cased format tag, with
an unrecognized tag raising `"Unsupported file format. Please upload PDF or
CSV."`; the surrounding `except` re-raises everything as a generic
exception prefixed `"Error parsing file: "`.  (A byte stream of the other
shape makes the respective reader collaborator fail, modelled abstractly;
no claim depends on those two branches.) -/
def parse_file (toDt : Cell → Option Nat) (f : FileObj) (file_type : String) :
    Except String (List Transaction) :=
  wrapErr "Error parsing file: "
    (if lowerStr file_type = "pdf" then
       match f with
       | .pdfPages ps => parse_pdf toDt ps
       | .csvLines _ => .error "PDF Parsing failed: invalid PDF byte stream"
     else if lowerStr file_type = "csv" then
       match f with
       | .csvLines ls => parse_csv toDt ls
       | .pdfPages _ => .error "CSV Parsing failed: invalid CSV byte stream"
     else .error "Unsupported file format. Please upload PDF or CSV.")

/-! ## Aggregation engine (src/utils/analyzer.py) -/

structure KPIs where
  total_income : ℚ
  total_expenses : ℚ
  net_savings : ℚ
  transaction_count : Nat
deriving DecidableEq

/-- `ExpenseAnalyzer.calculate_kpis`. -/
def calculate_kpis (df : List Transaction) : KPIs :=
  let incident_in := ((df.filter (fun r => 0 < r.amount)).map (fun r => r.amount)).sum
  let incident_out := ((df.filter (fun r => r.amount < 0)).map (fun r => r.amount)).sum
  { total_income := incident_in
    total_expenses := |incident_out|
    net_savings := incident_in + incident_out
    transaction_count := df.length }

structure MonthBucket where
  key : Nat
  income : ℚ
  expense : ℚ
deriving DecidableEq

/-- The `(month, Amount)` pairs that survive `set_index('Completion Time')`
followed by `resample('M')` (rows with NaT are excluded by resampling). -/
def datedPairs (df : List Transaction) : List (Nat × ℚ) :=
  df.filterMap (fun r => r.completionTime.map (fun k => (k, r.amount)))

def foldMin (x : Nat) (l : List Nat) : Nat := l.foldr min x

def foldMax (x : Nat) (l : List Nat) : Nat := l.foldr max x

/-- One resample bin: `Income = x[x > 0].sum()`,
`Expense = abs(x[x < 0].sum())` over the amounts of the bin's month. -/
def bucketFor (ps : List (Nat × ℚ)) (k : Nat) : MonthBucket :=
  let amts := (ps.filter (fun p => p.1 == k)).map (fun p => p.2)
  { key := k
    income := (amts.filter (fun a => 0 < a)).sum
    expense := |(amts.filter (fun a => a < 0)).sum| }

/-- `ExpenseAnalyzer.get_monthly_trends`: `resample('M')` materializes one
bin for every calendar month from the earliest to the latest indexed
timestamp, in chronological order, empty months included. -/
def get_monthly_trends (df : List Transaction) : List MonthBucket :=
  match datedPairs df with
  | [] => []
  | p :: ps =>
    let lo := foldMin p.1 (ps.map (fun q => q.1))
    let hi := foldMax p.1 (ps.map (fun q => q.1))
    (List.range (hi + 1 - lo)).map (fun i => bucketFor (p :: ps) (lo + i))

/-! ## Concrete instances used by witnesses and counterexamples -/

/-- A trivial stand-in for the external timestamp parser: the claims
settled on `clean_data` do not constrain `CompletionTime`. -/
def noDt : Cell → Option Nat := fun _ => none

/-- The spec's end-to-end scenario row (PaidIn = 2000.00, Withdrawn empty,
Details = "Received for Art"), plus one footer-garbage row with a short
receipt. -/
def cTable : RawTable :=
  { headers := ["Receipt No.", "Completion Time", "Details",
                "Transaction Status", "Paid In", "Withdrawn", "Balance"]
    rows := [[some "ABC1234", none, some "Received for Art", some "Completed",
              some "2000.00", none, some "3000.00"],
             [some "AB12", none, some "junk", none, none, none, none]] }

/-- The one data row of `cTable` that survives the receipt filter. -/
def cRow : List Cell :=
  [some "ABC1234", none, some "Received for Art", some "Completed",
   some "2000.00", none, some "3000.00"]

/-- The transaction `clean_data` produces from `cTable`. -/
def cTx : Transaction :=
  mkTransaction noDt (cleanHeaders cTable.headers) cRow

def cLedger : List Transaction := [cTx]

/-- Two dated transactions three calendar months apart. -/
def tA : Transaction :=
  { receiptNo := some "ABCDEF", completionTime := some 10, details := some "x",
    transactionStatus := none, paidIn := 5, withdrawn := 0, balance := 5,
    amount := 5, category := "Other" }

def tB : Transaction :=
  { receiptNo := some "ABCDEG", completionTime := some 13, details := some "y",
    transactionStatus := none, paidIn := 0, withdrawn := 3, balance := 2,
    amount := -3, category := "Other" }

def dfW : List Transaction := [tA, tB]

/-! ## Lemmas about the currency cleaner -/

theorem toList_mk (l : List Char) : (String.mk l).toList = l := rfl

theorem eraseChar_toList (c : Char) (s : String) :
    (eraseChar c s).toList = s.toList.filter (fun a => a ≠ c) := rfl

theorem parseBody_nonneg (body : List Char) (q : ℚ)
    (hq : parseBody body = some q) : 0 ≤ q := by
  unfold parseBody at hq
  split at hq
  · split at hq
    · exact absurd hq (by simp)
    · rw [Option.some.injEq] at hq
      exact hq ▸ Nat.cast_nonneg _
  · split at hq
    · rw [Option.some.injEq] at hq
      refine hq ▸ add_nonneg (Nat.cast_nonneg _) ?_
      positivity
    · exact absurd hq (by simp)
  · exact absurd hq (by simp)

theorem parseSigned_nonneg (cs : List Char) (h : '-' ∉ cs) (q : ℚ)
    (hq : parseSigned cs = some q) : 0 ≤ q := by
  cases cs with
  | nil => exact parseBody_nonneg [] q (by exact hq)
  | cons c t =>
    have hc : ¬c = '-' := fun e => h (e ▸ List.mem_cons_self c t)
    have hq' : (if c = '-' then (parseBody t).map (fun q => -q)
        else if c = '+' then parseBody t else parseBody (c :: t)) = some q := hq
    rw [if_neg hc] at hq'
    by_cases hp : c = '+'
    · rw [if_pos hp] at hq'
      exact parseBody_nonneg _ _ hq'
    · rw [if_neg hp] at hq'
      exact parseBody_nonneg _ _ hq'

theorem clean_currency_nonneg (v : Cell) : 0 ≤ clean_currency v := by
  rcases v with _ | s
  · exact le_refl (0 : ℚ)
  · unfold clean_currency
    dsimp only
    by_cases hs : s = ""
    · simp [hs]
    · rw [if_neg hs]
      cases hpf : parseFloat (eraseChar '-' (eraseChar ' ' (eraseChar ',' s))) with
      | none => exact le_refl (0 : ℚ)
      | some q =>
        show (0 : ℚ) ≤ q
        refine parseSigned_nonneg _ ?_ q (by exact hpf)
        intro hmem
        rw [eraseChar_toList] at hmem
        exact absurd (List.mem_filter.mp hmem).2 (by simp)

theorem eraseChar_swap (a b : Char) (s : String) :
    eraseChar a (eraseChar b s) = eraseChar b (eraseChar a s) := by
  show String.mk ((s.toList.filter (fun x => x ≠ b)).filter (fun x => x ≠ a)) =
    String.mk ((s.toList.filter (fun x => x ≠ a)).filter (fun x => x ≠ b))
  rw [List.filter_comm]

theorem eraseChar_idem (a : Char) (s : String) :
    eraseChar a (eraseChar a s) = eraseChar a s := by
  show String.mk ((s.toList.filter (fun x => x ≠ a)).filter (fun x => x ≠ a)) =
    String.mk (s.toList.filter (fun x => x ≠ a))
  rw [List.filter_filter]
  exact congrArg String.mk (List.filter_congr (fun c _ => Bool.and_self _))

theorem eraseChar_of_not_mem (a : Char) (s : String) (h : ∀ c ∈ s.toList, c ≠ a) :
    eraseChar a s = s := by
  unfold eraseChar
  conv_rhs => rw [show s = String.mk s.toList from rfl]
  exact congrArg String.mk (List.filter_eq_self.mpr (fun c hc => by simp [h c hc]))

/-- Deleting the minus signs first does not change the cleaned value: no
sign information in a currency string survives `clean_currency`. -/
theorem clean_currency_eraseChar (s : String) :
    clean_currency (some s) = clean_currency (some (eraseChar '-' s)) := by
  by_cases hs : s = ""
  · subst hs
    rfl
  · by_cases h2 : eraseChar '-' s = ""
    · have hall : ∀ c ∈ s.toList, c = '-' := by
        intro c hc
        have := List.filter_eq_nil_iff.mp (congrArg String.toList h2 : s.toList.filter (fun a => a ≠ '-') = [])
        simpa using this c hc
      have e1 : eraseChar ',' s = s :=
        eraseChar_of_not_mem _ _ (fun c hc => by rw [hall c hc]; decide)
      have e2 : eraseChar ' ' s = s :=
        eraseChar_of_not_mem _ _ (fun c hc => by rw [hall c hc]; decide)
      unfold clean_currency
      dsimp only
      rw [if_neg hs, if_pos h2, e1, e2, h2]
      rfl
    · unfold clean_currency
      dsimp only
      rw [if_neg hs, if_neg h2]
      have : eraseChar '-' (eraseChar ' ' (eraseChar ',' (eraseChar '-' s))) =
          eraseChar '-' (eraseChar ' ' (eraseChar ',' s)) := by
        rw [eraseChar_swap ',' '-', eraseChar_swap ' ' '-', eraseChar_idem]
      rw [this]

/-- A string whose de-signed, de-separated form fails to parse cleans to 0. -/
theorem clean_currency_parse_fail (s : String) (hs : s ≠ "")
    (h : parseFloat (eraseChar '-' (eraseChar ' ' (eraseChar ',' s))) = none) :
    clean_currency (some s) = 0 := by
  unfold clean_currency
  dsimp only
  rw [if_neg hs, h]

/-- A parseable unsigned literal prefixed with a minus sign cleans to its
magnitude: negative source values are stored as absolute values. -/
theorem clean_currency_neg_literal (s : String) (q : ℚ)
    (hq : parseFloat s = some q) (hm : '-' ∉ s.toList) (hc : ',' ∉ s.toList)
    (hsp : ' ' ∉ s.toList) : clean_currency (some ("-" ++ s)) = q ∧ 0 ≤ q := by
  refine ⟨?_, parseSigned_nonneg _ hm q (by exact hq)⟩
  have htl : ("-" ++ s).toList = '-' :: s.toList := by
    show ("-" ++ s).data = '-' :: s.data
    rw [String.data_append]
    rfl
  have hne : ("-" ++ s) ≠ "" := by
    intro h
    have := congrArg String.toList h
    rw [htl] at this
    exact List.cons_ne_nil _ _ this
  unfold clean_currency
  dsimp only
  rw [if_neg hne]
  have e1 : eraseChar ',' ("-" ++ s) = "-" ++ s := by
    refine eraseChar_of_not_mem _ _ (fun c hcm => ?_)
    rw [htl] at hcm
    rcases List.mem_cons.mp hcm with h1 | h2
    · subst h1
      decide
    · exact fun e => hc (e ▸ h2)
  have e2 : eraseChar ' ' ("-" ++ s) = "-" ++ s := by
    refine eraseChar_of_not_mem _ _ (fun c hcm => ?_)
    rw [htl] at hcm
    rcases List.mem_cons.mp hcm with h1 | h2
    · subst h1
      decide
    · exact fun e => hsp (e ▸ h2)
  have e3 : eraseChar '-' ("-" ++ s) = s := by
    unfold eraseChar
    rw [htl, List.filter_cons]
    rw [if_neg (by decide : ¬decide ('-' ≠ '-') = true)]
    conv_rhs => rw [show s = String.mk s.toList from rfl]
    refine congrArg String.mk (List.filter_eq_self.mpr (fun c hcm => ?_))
    simp only [ne_eq, decide_eq_true_eq]
    exact fun e => hm (e ▸ hcm)
  rw [e1, e2, e3, hq]

/-! ## Lemmas about `_clean_data` -/

theorem clean_data_ok (toDt : Cell → Option Nat) (t : RawTable)
    (l : List Transaction) (hok : clean_data toDt t = .ok l) :
    l = (if (cleanHeaders t.headers).contains "Receipt No." then
          t.rows.filter (keepRow (cleanHeaders t.headers))
         else t.rows).map (mkTransaction toDt (cleanHeaders t.headers)) := by
  unfold clean_data at hok
  split at hok
  · exact (Except.ok.inj hok).symm
  · exact absurd hok (by simp)

theorem mkTransaction_nonneg (toDt : Cell → Option Nat) (hs : List String)
    (row : List Cell) :
    0 ≤ (mkTransaction toDt hs row).paidIn ∧
    0 ≤ (mkTransaction toDt hs row).withdrawn ∧
    0 ≤ (mkTransaction toDt hs row).balance := by
  refine ⟨?_, ?_, ?_⟩ <;> simp only [mkTransaction] <;> split <;>
    first
    | exact clean_currency_nonneg _
    | exact le_refl 0

theorem mkTransaction_amount (toDt : Cell → Option Nat) (hs : List String)
    (row : List Cell) :
    (mkTransaction toDt hs row).amount =
      (if 0 < (mkTransaction toDt hs row).paidIn
       then (mkTransaction toDt hs row).paidIn
       else -(mkTransaction toDt hs row).withdrawn) := rfl

theorem mkTransaction_receiptNo (toDt : Cell → Option Nat) (hs : List String)
    (row : List Cell) :
    (mkTransaction toDt hs row).receiptNo =
      (if hs.contains "Receipt No." then cellAt hs row "Receipt No." else none) := rfl

/-- Sign/derivation facts for one signed amount. -/
theorem amount_derivation (p w a : ℚ) (hp : 0 ≤ p) (hw : 0 ≤ w)
    (ha : a = if 0 < p then p else -w) :
    (0 < a ↔ 0 < p) ∧ (a < 0 ↔ 0 < w ∧ p = 0) ∧
    (0 < p → a = p) ∧ (p = 0 → a = -w) := by
  by_cases h : 0 < p
  · rw [if_pos h] at ha
    subst ha
    refine ⟨Iff.rfl, ?_, fun _ => rfl, fun h0 => absurd h (by rw [h0]; exact lt_irrefl 0)⟩
    constructor
    · intro h1
      linarith
    · rintro ⟨_, h2⟩
      rw [h2] at h
      exact absurd h (lt_irrefl 0)
  · rw [if_neg h] at ha
    subst ha
    have hp0 : p = 0 := le_antisymm (not_lt.mp h) hp
    refine ⟨?_, ?_, fun h1 => absurd h1 h, fun _ => rfl⟩
    · constructor
      · intro h1
        linarith
      · intro h1
        exact absurd h1 h
    · constructor
      · intro h1
        exact ⟨by linarith, hp0⟩
      · rintro ⟨h1, _⟩
        linarith

/-! ## Claim C1 -/

/-- Claim C1: every row of a ledger produced by `_clean_data` satisfies
`Amount > 0 ↔ PaidIn > 0`, `Amount < 0 ↔ (Withdrawn > 0 ∧ PaidIn = 0)`,
and `Amount` equals `PaidIn` when `PaidIn > 0` and `-Withdrawn` otherwise,
the cleaned `PaidIn`/`Withdrawn` being non-negative. -/
theorem ledger_amount_sign (toDt : Cell → Option Nat) (t : RawTable)
    (l : List Transaction) (hok : clean_data toDt t = .ok l)
    (r : Transaction) (hr : r ∈ l) :
    0 ≤ r.paidIn ∧ 0 ≤ r.withdrawn ∧
    (0 < r.amount ↔ 0 < r.paidIn) ∧
    (r.amount < 0 ↔ 0 < r.withdrawn ∧ r.paidIn = 0) ∧
    (0 < r.paidIn → r.amount = r.paidIn) ∧
    (r.paidIn = 0 → r.amount = -r.withdrawn) := by
  rw [clean_data_ok toDt t l hok] at hr
  obtain ⟨row, _, rfl⟩ := List.mem_map.mp hr
  obtain ⟨hp, hw, _⟩ := mkTransaction_nonneg toDt (cleanHeaders t.headers) row
  obtain ⟨h1, h2, h3, h4⟩ :=
    amount_derivation _ _ _ hp hw (mkTransaction_amount toDt (cleanHeaders t.headers) row)
  exact ⟨hp, hw, h1, h2, h3, h4⟩

theorem ledger_amount_sign_witness :
    0 ≤ cTx.paidIn ∧ 0 ≤ cTx.withdrawn ∧
    (0 < cTx.amount ↔ 0 < cTx.paidIn) ∧
    (cTx.amount < 0 ↔ 0 < cTx.withdrawn ∧ cTx.paidIn = 0) ∧
    (0 < cTx.paidIn → cTx.amount = cTx.paidIn) ∧
    (cTx.paidIn = 0 → cTx.amount = -cTx.withdrawn) :=
  ledger_amount_sign noDt cTable cLedger rfl cTx
    (by unfold cLedger; exact List.mem_singleton.mpr rfl)

/-! ## Claim C7 -/

/-- Claim C7: when a `Receipt No.` column was mapped, every retained row of the
produced ledger has a non-null receipt of string length > 5, any source row
with a missing or short receipt produces no ledger row, and exactly the
rows passing the receipt filter are retained. -/
theorem ledger_receipt_filter (toDt : Cell → Option Nat) (t : RawTable)
    (l : List Transaction)
    (hrec : (cleanHeaders t.headers).contains "Receipt No." = true)
    (hok : clean_data toDt t = .ok l) :
    (∀ r ∈ l, ∃ s, r.receiptNo = some s ∧ s.length > 5) ∧
    (∀ row ∈ t.rows, keepRow (cleanHeaders t.headers) row = false →
      mkTransaction toDt (cleanHeaders t.headers) row ∉ l) ∧
    l.length = (t.rows.filter (keepRow (cleanHeaders t.headers))).length := by
  have hl := clean_data_ok toDt t l hok
  rw [if_pos hrec] at hl
  have h1 : ∀ r ∈ l, ∃ s, r.receiptNo = some s ∧ s.length > 5 := by
    intro r hr
    rw [hl] at hr
    obtain ⟨row, hrowf, rfl⟩ := List.mem_map.mp hr
    have hk := (List.mem_filter.mp hrowf).2
    unfold keepRow at hk
    cases hcell : cellAt (cleanHeaders t.headers) row "Receipt No." with
    | none =>
      rw [hcell] at hk
      simp at hk
    | some s =>
      rw [hcell] at hk
      refine ⟨s, ?_, by simpa using hk⟩
      rw [mkTransaction_receiptNo, if_pos hrec, hcell]
  refine ⟨h1, ?_, ?_⟩
  · intro row _ hbad hmem
    obtain ⟨s, hsome, hlen⟩ := h1 _ hmem
    rw [mkTransaction_receiptNo, if_pos hrec] at hsome
    unfold keepRow at hbad
    cases hcell : cellAt (cleanHeaders t.headers) row "Receipt No." with
    | none =>
      rw [hcell] at hsome
      exact Option.noConfusion hsome
    | some s2 =>
      rw [hcell] at hbad hsome
      have : s2 = s := Option.some.inj hsome
      subst this
      simp at hbad
      omega
  · rw [hl]
    exact List.length_map _ _

theorem ledger_receipt_filter_witness :
    (∀ r ∈ cLedger, ∃ s, r.receiptNo = some s ∧ s.length > 5) ∧
    (∀ row ∈ cTable.rows, keepRow (cleanHeaders cTable.headers) row = false →
      mkTransaction noDt (cleanHeaders cTable.headers) row ∉ cLedger) ∧
    cLedger.length =
      (cTable.rows.filter (keepRow (cleanHeaders cTable.headers))).length :=
  ledger_receipt_filter noDt cTable cLedger (by decide) rfl

/-! ## Claim C9 -/

/-- Claim C9: cleaned `PaidIn`, `Withdrawn`, `Balance` are non-negative in every
produced ledger; `clean_currency` deletes every minus sign before parsing,
so no sign information survives and a negated literal is stored as its
absolute value; a string whose cleaned form fails to parse becomes 0. -/
theorem cleaned_currency_invariants :
    (∀ (toDt : Cell → Option Nat) (t : RawTable) (l : List Transaction),
      clean_data toDt t = .ok l → ∀ r ∈ l,
        0 ≤ r.paidIn ∧ 0 ≤ r.withdrawn ∧ 0 ≤ r.balance) ∧
    (∀ s : String,
      clean_currency (some s) = clean_currency (some (eraseChar '-' s))) ∧
    (∀ s : String, s ≠ "" →
      parseFloat (eraseChar '-' (eraseChar ' ' (eraseChar ',' s))) = none →
      clean_currency (some s) = 0) ∧
    (∀ (s : String) (q : ℚ), parseFloat s = some q → '-' ∉ s.toList →
      ',' ∉ s.toList → ' ' ∉ s.toList →
      clean_currency (some ("-" ++ s)) = q ∧ 0 ≤ q) := by
  refine ⟨?_, clean_currency_eraseChar, clean_currency_parse_fail,
    clean_currency_neg_literal⟩
  intro toDt t l hok r hr
  rw [clean_data_ok toDt t l hok] at hr
  obtain ⟨row, _, rfl⟩ := List.mem_map.mp hr
  exact mkTransaction_nonneg toDt _ row

theorem cleaned_currency_invariants_witness :
    (0 ≤ cTx.paidIn ∧ 0 ≤ cTx.withdrawn ∧ 0 ≤ cTx.balance) ∧
    clean_currency (some "-3,000.50") =
      clean_currency (some (eraseChar '-' "-3,000.50")) ∧
    clean_currency (some "abc") = 0 ∧
    clean_currency (some ("-" ++ "500.00")) = 500 := by
  refine ⟨cleaned_currency_invariants.1 noDt cTable cLedger rfl cTx
      (by unfold cLedger; exact List.mem_singleton.mpr rfl),
    cleaned_currency_invariants.2.1 "-3,000.50",
    cleaned_currency_invariants.2.2.1 "abc" (by decide) rfl, ?_⟩
  have h := (cleaned_currency_invariants.2.2.2 "500.00"
    ((digitsVal ['5', '0', '0'] : ℚ) + (digitsVal ['0', '0'] : ℚ) / 10 ^ 2)
    rfl (by decide) (by decide) (by decide)).1
  rw [h, show digitsVal ['5', '0', '0'] = 500 from rfl,
    show digitsVal ['0', '0'] = 0 from rfl]
  norm_num

/-! ## Claim C5 -/

theorem cTx_paidIn : cTx.paidIn = 2000 := by
  have h : cTx.paidIn =
      (digitsVal ['2', '0', '0', '0'] : ℚ) + (digitsVal ['0', '0'] : ℚ) / 10 ^ 2 := rfl
  rw [h, show digitsVal ['2', '0', '0', '0'] = 2000 from rfl,
    show digitsVal ['0', '0'] = 0 from rfl]
  norm_num

theorem cTx_amount : cTx.amount = 2000 := by
  have h : cTx.amount = if 0 < cTx.paidIn then cTx.paidIn else -cTx.withdrawn :=
    mkTransaction_amount noDt (cleanHeaders cTable.headers) cRow
  rw [h, cTx_paidIn, if_pos (by norm_num)]

/-- Claim C5 counterexample: the scenario row (PaidIn = 2000.00, Withdrawn empty,
Details = "Received for Art") yields Amount = 2000 but its category is not
"Received M-Pesa", because "received from" is not a substring of the
lower-cased details text. -/
theorem scenario_row_counterexample :
    clean_data noDt cTable = .ok [cTx] ∧ cTx.amount = 2000 ∧
    cTx.category ≠ "Received M-Pesa" :=
  ⟨rfl, cTx_amount, by decide⟩

/-- Claim C5 amended: the scenario row yields Amount = +2000.00 and Category
"Other" (no keyword rule matches "received for art"). -/
theorem scenario_row_amended :
    clean_data noDt cTable = .ok [cTx] ∧ cTx.amount = 2000 ∧
    cTx.category = "Other" :=
  ⟨rfl, cTx_amount, by decide⟩

/-! ## Claim C2 -/

/-- Claim C2 counterexample: a Details text containing both "pay bill" and
"loan" is not always categorized "Pay Bill" — when it also contains
"airtime", rule 1 fires first. -/
theorem categorize_pay_bill_counterexample :
    strContains (lowerStr "airtime pay bill loan") "pay bill" = true ∧
    strContains (lowerStr "airtime pay bill loan") "loan" = true ∧
    categorize_transaction "airtime pay bill loan" = "Airtime" ∧
    categorize_transaction "airtime pay bill loan" ≠ "Pay Bill" := by
  refine ⟨by decide, by decide, by decide, by decide⟩

/-- Claim C2 amended: the categorizer lower-cases the text and evaluates the
eight ordered keyword rules by first match (it equals the spec's ordered
rule list, with "Other" as default), and a text containing "pay bill" and
"loan" is categorized "Pay Bill" provided no earlier rule ("airtime")
matches. -/
theorem categorize_first_match :
    (∀ d, categorize_transaction d = specCategorize d) ∧
    (∀ d, strContains (lowerStr d) "pay bill" = true →
      strContains (lowerStr d) "loan" = true →
      strContains (lowerStr d) "airtime" = false →
      categorize_transaction d = "Pay Bill") := by
  constructor
  · intro d
    simp only [specCategorize, specRules, firstMatch, List.any_cons,
      List.any_nil, Bool.or_false]
    unfold categorize_transaction
    simp only [Bool.or_assoc]
  · intro d h1 _ h3
    simp only [categorize_transaction, h1, h3, Bool.true_or, if_true,
      Bool.false_eq_true, if_false]

theorem categorize_first_match_witness :
    categorize_transaction "Pay Bill loan repayment" =
      specCategorize "Pay Bill loan repayment" ∧
    categorize_transaction "Pay Bill loan repayment" = "Pay Bill" :=
  ⟨categorize_first_match.1 "Pay Bill loan repayment",
   categorize_first_match.2 "Pay Bill loan repayment" (by decide) (by decide)
     (by decide)⟩

/-! ## Claim C6 -/

/-- Claim C6 counterexample: two source headers, one containing "time" and one
containing "date", are both relabeled "Completion Time": the renamed table
has two columns for the canonical field, not exactly one. -/
theorem header_rename_counterexample :
    cleanHeaders ["Transaction time", "Transaction date"] =
      ["Completion Time", "Completion Time"] ∧
    (cleanHeaders ["Transaction time", "Transaction date"]).count
      "Completion Time" ≠ 1 := by
  refine ⟨by decide, by decide⟩

/-- Claim C6 amended: renaming never merges or drops columns — the renamed
header list has the same length as the source, and a canonical name `c`
labels exactly as many columns as there are source headers mapping to `c`
(so colliding source columns are all kept, none overwritten). -/
theorem header_rename_keeps_all (hs : List String) (c : String) :
    (cleanHeaders hs).length = hs.length ∧
    (cleanHeaders hs).count c =
      hs.countP (fun h => mapHeader (normHeader h) == c) := by
  constructor
  · unfold cleanHeaders
    rw [List.length_map, List.length_map]
  · unfold cleanHeaders
    rw [List.count_eq_countP, List.countP_map, List.countP_map]
    rfl

/-! ## Claim C3 -/

theorem list_sum_nonpos {l : List ℚ} (h : ∀ x ∈ l, x ≤ 0) : l.sum ≤ 0 := by
  induction l with
  | nil => simp
  | cons a t ih =>
    rw [List.sum_cons]
    have ha := h a (List.mem_cons_self a t)
    have ht := ih (fun x hx => h x (List.mem_cons_of_mem a hx))
    linarith

/-- Claim C3: `calculate_kpis` returns total_income = Σ positive Amounts (≥ 0),
total_expenses = |Σ negative Amounts| (≥ 0), transaction_count = row
count, and total_income − total_expenses = net_savings exactly. -/
theorem kpis_consistent (df : List Transaction) :
    (calculate_kpis df).total_income =
      ((df.filter (fun r => 0 < r.amount)).map (fun r => r.amount)).sum ∧
    0 ≤ (calculate_kpis df).total_income ∧
    (calculate_kpis df).total_expenses =
      |((df.filter (fun r => r.amount < 0)).map (fun r => r.amount)).sum| ∧
    0 ≤ (calculate_kpis df).total_expenses ∧
    (calculate_kpis df).transaction_count = df.length ∧
    (calculate_kpis df).total_income - (calculate_kpis df).total_expenses =
      (calculate_kpis df).net_savings := by
  have hpos : 0 ≤ ((df.filter (fun r => 0 < r.amount)).map (fun r => r.amount)).sum := by
    refine List.sum_nonneg ?_
    intro x hx
    obtain ⟨r, hr, rfl⟩ := List.mem_map.mp hx
    have := (List.mem_filter.mp hr).2
    have : 0 < r.amount := by simpa using this
    exact le_of_lt this
  have hneg : ((df.filter (fun r => r.amount < 0)).map (fun r => r.amount)).sum ≤ 0 := by
    refine list_sum_nonpos ?_
    intro x hx
    obtain ⟨r, hr, rfl⟩ := List.mem_map.mp hx
    have := (List.mem_filter.mp hr).2
    have : r.amount < 0 := by simpa using this
    exact le_of_lt this
  refine ⟨rfl, hpos, rfl, abs_nonneg _, rfl, ?_⟩
  show ((df.filter (fun r => 0 < r.amount)).map (fun r => r.amount)).sum -
      |((df.filter (fun r => r.amount < 0)).map (fun r => r.amount)).sum| =
    ((df.filter (fun r => 0 < r.amount)).map (fun r => r.amount)).sum +
      ((df.filter (fun r => r.amount < 0)).map (fun r => r.amount)).sum
  rw [abs_of_nonpos hneg]
  ring

/-! ## Claim C4 -/

/-- An uploaded file with an unrecognized format tag. -/
def uFile : FileObj := .csvLines []

/-- A CSV with no header row among its lines. -/
def hFile : FileObj := .csvLines ["a,b", "1,2"]

/-- A PDF whose only grid has no header-bearing row. -/
def nFile : FileObj := .pdfPages [[[[some "hello"]]]]

/-- A CSV whose header is found but which lacks a Details column, making
`_clean_data` fail structurally. -/
def gFile : FileObj := .csvLines ["Receipt No.,Completion Time", "ABC1234,"]

/-- Claim C4 counterexample: the HeaderNotFound failure is not surfaced
verbatim — the caller receives it re-wrapped under two message prefixes
(and as a generic exception, not its original kind). -/
theorem error_surfacing_counterexample :
    parse_file noDt hFile "csv" = .error
      "Error parsing file: CSV Parsing failed: Could not likely find M-Pesa transaction headers in CSV." ∧
    "Error parsing file: CSV Parsing failed: Could not likely find M-Pesa transaction headers in CSV." ≠
      "Could not likely find M-Pesa transaction headers in CSV." :=
  ⟨rfl, by decide⟩

/-- Claim C4 amended: the four whole-ingestion failure kinds each abort the run
with an error; each surfaced message embeds the originating message
verbatim under an "Error parsing file: " prefix (plus a path prefix for
CSV/PDF failures), and the four surfaced messages are pairwise distinct,
so the kinds are distinguishable by message content. -/
theorem error_taxonomy_amended :
    parse_file noDt uFile "txt" = .error
      "Error parsing file: Unsupported file format. Please upload PDF or CSV." ∧
    parse_file noDt hFile "csv" = .error
      "Error parsing file: CSV Parsing failed: Could not likely find M-Pesa transaction headers in CSV." ∧
    parse_file noDt nFile "pdf" = .error
      "Error parsing file: PDF Parsing failed: No transaction tables found in PDF." ∧
    parse_file noDt gFile "csv" = .error
      "Error parsing file: CSV Parsing failed: 'Details'" ∧
    strContains
      "Error parsing file: Unsupported file format. Please upload PDF or CSV."
      "Unsupported file format. Please upload PDF or CSV." = true ∧
    strContains
      "Error parsing file: CSV Parsing failed: Could not likely find M-Pesa transaction headers in CSV."
      "Could not likely find M-Pesa transaction headers in CSV." = true ∧
    strContains
      "Error parsing file: PDF Parsing failed: No transaction tables found in PDF."
      "No transaction tables found in PDF." = true ∧
    strContains "Error parsing file: CSV Parsing failed: 'Details'"
      "'Details'" = true ∧
    List.Nodup
      ["Error parsing file: Unsupported file format. Please upload PDF or CSV.",
       "Error parsing file: CSV Parsing failed: Could not likely find M-Pesa transaction headers in CSV.",
       "Error parsing file: PDF Parsing failed: No transaction tables found in PDF.",
       "Error parsing file: CSV Parsing failed: 'Details'"] :=
  ⟨rfl, rfl, rfl, rfl, by decide, by decide, by decide, by decide, by decide⟩

/-! ## Summation lemmas for the monthly-trends claims -/

theorem sum_map_zero_q (ks : List Nat) : (ks.map (fun _ => (0 : ℚ))).sum = 0 := by
  induction ks with
  | nil => rfl
  | cons a t ih => rw [List.map_cons, List.sum_cons, ih, add_zero]

theorem sum_map_add_q (ks : List Nat) (f g : Nat → ℚ) :
    (ks.map (fun k => f k + g k)).sum = (ks.map f).sum + (ks.map g).sum := by
  induction ks with
  | nil => simp
  | cons a t ih =>
    rw [List.map_cons, List.sum_cons, List.map_cons, List.sum_cons,
      List.map_cons, List.sum_cons, ih]
    ring

theorem sum_map_neg_q (ks : List Nat) (f : Nat → ℚ) :
    (ks.map (fun k => -f k)).sum = -(ks.map f).sum := by
  induction ks with
  | nil => simp
  | cons a t ih =>
    rw [List.map_cons, List.sum_cons, List.map_cons, List.sum_cons, ih]
    ring

theorem sum_map_ite_q (ks : List Nat) (hk : ks.Nodup) (k0 : Nat) (hm : k0 ∈ ks)
    (x : ℚ) : (ks.map (fun j => if k0 == j then x else 0)).sum = x := by
  induction ks with
  | nil => cases hm
  | cons a t ih =>
    rw [List.map_cons, List.sum_cons]
    rcases List.mem_cons.mp hm with h | h
    · subst h
      rw [if_pos (by simp)]
      have hz : ∀ j ∈ t, (if k0 == j then x else (0 : ℚ)) = 0 := by
        intro j hj
        have hne : ¬k0 = j := fun e => (List.nodup_cons.mp hk).1 (e ▸ hj)
        simp [hne]
      rw [List.map_congr_left hz, sum_map_zero_q, add_zero]
    · have hne : ¬(k0 == a) = true := by
        simp only [beq_iff_eq]
        exact fun e => (List.nodup_cons.mp hk).1 (e ▸ h)
      rw [if_neg hne, zero_add]
      exact ih (List.nodup_cons.mp hk).2 h

/-- Summing the per-key fiber sums over a duplicate-free key list covering
all first components recovers the total. -/
theorem fiber_sum (ps : List (Nat × ℚ)) (ks : List Nat) (hk : ks.Nodup)
    (hcov : ∀ p ∈ ps, p.1 ∈ ks) :
    (ks.map (fun k =>
      ((ps.filter (fun q => q.1 == k)).map (fun q => q.2)).sum)).sum =
    (ps.map (fun q => q.2)).sum := by
  induction ps with
  | nil => simp
  | cons p ps ih =>
    have hstep : ∀ k ∈ ks,
        ((List.filter (fun q => q.1 == k) (p :: ps)).map (fun q => q.2)).sum =
        (fun k => if p.1 == k then p.2 else 0) k +
          (fun k => ((ps.filter (fun q => q.1 == k)).map (fun q => q.2)).sum) k := by
      intro k _
      dsimp only
      rw [List.filter_cons]
      by_cases h : (p.1 == k) = true
      · rw [if_pos h, if_pos h, List.map_cons, List.sum_cons]
      · rw [if_neg h, if_neg h, zero_add]
    rw [List.map_congr_left hstep, sum_map_add_q,
      sum_map_ite_q ks hk p.1 (hcov p (List.mem_cons_self p ps)) p.2,
      ih (fun q hq => hcov q (List.mem_cons_of_mem p hq)),
      List.map_cons, List.sum_cons]

/-- Restricting a fiber to amounts satisfying `pred` equals the fiber of
the `pred`-restricted pair list. -/
theorem bucket_restrict (ps : List (Nat × ℚ)) (k : Nat) (pred : ℚ → Bool) :
    (((ps.filter (fun q => q.1 == k)).map (fun q => q.2)).filter
        (fun a => pred a)).sum =
    (((ps.filter (fun q => pred q.2)).filter (fun q => q.1 == k)).map
        (fun q => q.2)).sum := by
  rw [List.filter_map, List.filter_comm]
  rfl

theorem foldMin_le (x : Nat) (l : List Nat) (k : Nat) (h : k = x ∨ k ∈ l) :
    foldMin x l ≤ k := by
  induction l with
  | nil =>
    rcases h with h | h
    · exact h ▸ le_refl x
    · cases h
  | cons a t ih =>
    have hfold : foldMin x (a :: t) = min a (foldMin x t) := rfl
    rcases h with h | h
    · subst h
      exact le_trans (hfold ▸ min_le_right _ _) (ih (Or.inl rfl))
    · rcases List.mem_cons.mp h with h2 | h2
      · subst h2
        exact hfold ▸ min_le_left _ _
      · exact le_trans (hfold ▸ min_le_right _ _) (ih (Or.inr h2))

theorem le_foldMax (x : Nat) (l : List Nat) (k : Nat) (h : k = x ∨ k ∈ l) :
    k ≤ foldMax x l := by
  induction l with
  | nil =>
    rcases h with h | h
    · exact h ▸ le_refl x
    · cases h
  | cons a t ih =>
    have hfold : foldMax x (a :: t) = max a (foldMax x t) := rfl
    rcases h with h | h
    · subst h
      exact le_trans (ih (Or.inl rfl)) (hfold ▸ le_max_right _ _)
    · rcases List.mem_cons.mp h with h2 | h2
      · subst h2
        exact hfold ▸ le_max_left _ _
      · exact le_trans (ih (Or.inr h2)) (hfold ▸ le_max_right _ _)

theorem datedPairs_cons (r : Transaction) (t : List Transaction) (k : Nat)
    (hk : r.completionTime = some k) :
    datedPairs (r :: t) = (k, r.amount) :: datedPairs t := by
  unfold datedPairs
  rw [List.filterMap_cons, hk]
  rfl

/-- Under totally dated rows, the sign-restricted dated amounts are the
sign-restricted row amounts. -/
theorem datedPairs_restrict (df : List Transaction)
    (h : ∀ r ∈ df, r.completionTime.isSome) (pred : ℚ → Bool) :
    ((datedPairs df).filter (fun q => pred q.2)).map (fun q => q.2) =
    (df.filter (fun r => pred r.amount)).map (fun r => r.amount) := by
  induction df with
  | nil => rfl
  | cons r t ih =>
    obtain ⟨k, hk⟩ := Option.isSome_iff_exists.mp (h r (List.mem_cons_self r t))
    rw [datedPairs_cons r t k hk, List.filter_cons, List.filter_cons]
    have ih2 := ih (fun x hx => h x (List.mem_cons_of_mem r hx))
    by_cases hp : pred r.amount = true
    · rw [if_pos (by exact hp), if_pos hp, List.map_cons, List.map_cons, ih2]
    · rw [if_neg (by exact hp), if_neg hp, ih2]

/-! ## Claim C8 -/

/-- Claim C8: when every row has a non-null CompletionTime, the monthly-trends
Income entries sum to `calculate_kpis`' total_income and the Expense
entries sum to total_expenses. -/
theorem monthly_trends_match_kpis (df : List Transaction)
    (h : ∀ r ∈ df, r.completionTime.isSome) :
    ((get_monthly_trends df).map MonthBucket.income).sum =
      (calculate_kpis df).total_income ∧
    ((get_monthly_trends df).map MonthBucket.expense).sum =
      (calculate_kpis df).total_expenses := by
  cases hd : datedPairs df with
  | nil =>
    have hdf : df = [] := by
      cases df with
      | nil => rfl
      | cons r t =>
        obtain ⟨k, hk⟩ := Option.isSome_iff_exists.mp (h r (List.mem_cons_self r t))
        rw [datedPairs_cons r t k hk] at hd
        exact absurd hd (by simp)
    subst hdf
    exact ⟨rfl, rfl⟩
  | cons p ps =>
    have htr : get_monthly_trends df =
        (List.range (foldMax p.1 (ps.map (fun q => q.1)) + 1 -
            foldMin p.1 (ps.map (fun q => q.1)))).map
          (fun i => bucketFor (p :: ps)
            (foldMin p.1 (ps.map (fun q => q.1)) + i)) := by
      unfold get_monthly_trends
      rw [hd]
    set lo := foldMin p.1 (ps.map (fun q => q.1)) with hlo
    set hi := foldMax p.1 (ps.map (fun q => q.1)) with hhi
    set n := hi + 1 - lo with hn
    set ks := (List.range n).map (fun i => lo + i) with hks
    have hks_nodup : ks.Nodup :=
      List.Nodup.map (fun a b hab => by omega) (List.nodup_range n)
    have hcov : ∀ q ∈ (p :: ps), q.1 ∈ ks := by
      intro q hq
      have h1 : lo ≤ q.1 := by
        refine foldMin_le p.1 (ps.map (fun q => q.1)) q.1 ?_
        rcases List.mem_cons.mp hq with h2 | h2
        · exact Or.inl (by rw [h2])
        · exact Or.inr (List.mem_map.mpr ⟨q, h2, rfl⟩)
      have h2 : q.1 ≤ hi := by
        refine le_foldMax p.1 (ps.map (fun q => q.1)) q.1 ?_
        rcases List.mem_cons.mp hq with h2 | h2
        · exact Or.inl (by rw [h2])
        · exact Or.inr (List.mem_map.mpr ⟨q, h2, rfl⟩)
      rw [hks]
      exact List.mem_map.mpr ⟨q.1 - lo, List.mem_range.mpr (by omega), by omega⟩
    have key_sum : ∀ pred : ℚ → Bool,
        ((List.range n).map (fun i =>
          ((((p :: ps).filter (fun q => pred q.2)).filter
              (fun q => q.1 == lo + i)).map (fun q => q.2)).sum)).sum =
        (((p :: ps).filter (fun q => pred q.2)).map (fun q => q.2)).sum := by
      intro pred
      have hfib := fiber_sum ((p :: ps).filter (fun q => pred q.2)) ks hks_nodup
        (fun q hq => hcov q (List.mem_of_mem_filter hq))
      rw [hks, List.map_map] at hfib
      exact hfib
    have hinc : ((get_monthly_trends df).map MonthBucket.income).sum =
        (((p :: ps).filter (fun q => decide (0 < q.2))).map (fun q => q.2)).sum := by
      rw [htr, List.map_map]
      have hpt : ∀ i ∈ List.range n,
          (MonthBucket.income ∘ fun i => bucketFor (p :: ps) (lo + i)) i =
          ((((p :: ps).filter (fun q => decide (0 < q.2))).filter
              (fun q => q.1 == lo + i)).map (fun q => q.2)).sum := by
        intro i _
        show (bucketFor (p :: ps) (lo + i)).income = _
        have hb : (bucketFor (p :: ps) (lo + i)).income =
            ((((p :: ps).filter (fun q => q.1 == lo + i)).map
              (fun q => q.2)).filter (fun a => decide (0 < a))).sum := rfl
        rw [hb, bucket_restrict]
      rw [List.map_congr_left hpt]
      exact key_sum (fun a => decide (0 < a))
    have hexp : ((get_monthly_trends df).map MonthBucket.expense).sum =
        -(((p :: ps).filter (fun q => decide (q.2 < 0))).map (fun q => q.2)).sum := by
      rw [htr, List.map_map]
      have hpt : ∀ i ∈ List.range n,
          (MonthBucket.expense ∘ fun i => bucketFor (p :: ps) (lo + i)) i =
          -(((((p :: ps).filter (fun q => decide (q.2 < 0))).filter
              (fun q => q.1 == lo + i)).map (fun q => q.2)).sum) := by
        intro i _
        show (bucketFor (p :: ps) (lo + i)).expense = _
        have hb : (bucketFor (p :: ps) (lo + i)).expense =
            |((((p :: ps).filter (fun q => q.1 == lo + i)).map
              (fun q => q.2)).filter (fun a => decide (a < 0))).sum| := rfl
        have hS : ((((p :: ps).filter (fun q => decide (q.2 < 0))).filter
            (fun q => q.1 == lo + i)).map (fun q => q.2)).sum ≤ 0 := by
          refine list_sum_nonpos ?_
          intro x hx
          obtain ⟨q, hq, rfl⟩ := List.mem_map.mp hx
          have hq1 : q ∈ (p :: ps).filter (fun q => decide (q.2 < 0)) :=
            List.mem_of_mem_filter hq
          have : q.2 < 0 := by simpa using (List.mem_filter.mp hq1).2
          exact le_of_lt this
        rw [hb, bucket_restrict, abs_of_nonpos hS]
      rw [List.map_congr_left hpt, sum_map_neg_q]
      rw [key_sum (fun a => decide (a < 0))]
    have hrestr_pos := datedPairs_restrict df h (fun a => decide (0 < a))
    have hrestr_neg := datedPairs_restrict df h (fun a => decide (a < 0))
    rw [hd] at hrestr_pos hrestr_neg
    constructor
    · rw [hinc, hrestr_pos]
      rfl
    · rw [hexp, hrestr_neg]
      show -((df.filter (fun r => decide (r.amount < 0))).map (fun r => r.amount)).sum =
        |((df.filter (fun r => r.amount < 0)).map (fun r => r.amount)).sum|
      have hS : ((df.filter (fun r => r.amount < 0)).map (fun r => r.amount)).sum ≤ 0 := by
        refine list_sum_nonpos ?_
        intro x hx
        obtain ⟨r, hr, rfl⟩ := List.mem_map.mp hx
        have : r.amount < 0 := by simpa using (List.mem_filter.mp hr).2
        exact le_of_lt this
      rw [abs_of_nonpos hS]

theorem monthly_trends_match_kpis_witness :
    ((get_monthly_trends dfW).map MonthBucket.income).sum =
      (calculate_kpis dfW).total_income ∧
    ((get_monthly_trends dfW).map MonthBucket.expense).sum =
      (calculate_kpis dfW).total_expenses :=
  monthly_trends_match_kpis dfW (by decide)

/-! ## Claim C10 -/

/-- Claim C10: the monthly-trends buckets are exactly the consecutive run of
month keys from the earliest to the latest dated row (in chronological
order, strictly increasing), and a bucket whose month has no dated row
reports Income = 0 and Expense = 0. -/
theorem monthly_trends_complete (df : List Transaction) (p : Nat × ℚ)
    (ps : List (Nat × ℚ)) (hd : datedPairs df = p :: ps) :
    ((get_monthly_trends df).map MonthBucket.key) =
      List.range' (foldMin p.1 (ps.map (fun q => q.1)))
        (foldMax p.1 (ps.map (fun q => q.1)) + 1 -
          foldMin p.1 (ps.map (fun q => q.1))) ∧
    List.Pairwise (· < ·) ((get_monthly_trends df).map MonthBucket.key) ∧
    ∀ b ∈ get_monthly_trends df,
      (datedPairs df).filter (fun q => q.1 == b.key) = [] →
      b.income = 0 ∧ b.expense = 0 := by
  have htr : get_monthly_trends df =
      (List.range (foldMax p.1 (ps.map (fun q => q.1)) + 1 -
          foldMin p.1 (ps.map (fun q => q.1)))).map
        (fun i => bucketFor (p :: ps)
          (foldMin p.1 (ps.map (fun q => q.1)) + i)) := by
    unfold get_monthly_trends
    rw [hd]
  have hkeys : ((get_monthly_trends df).map MonthBucket.key) =
      List.range' (foldMin p.1 (ps.map (fun q => q.1)))
        (foldMax p.1 (ps.map (fun q => q.1)) + 1 -
          foldMin p.1 (ps.map (fun q => q.1))) := by
    rw [htr, List.map_map, List.range'_eq_map_range]
    exact List.map_congr_left (fun i _ => rfl)
  refine ⟨hkeys, ?_, ?_⟩
  · rw [hkeys]
    exact List.pairwise_lt_range' _ _ 1 (by omega)
  · intro b hb hempty
    rw [htr] at hb
    obtain ⟨i, _, rfl⟩ := List.mem_map.mp hb
    rw [hd] at hempty
    have hempty2 : (p :: ps).filter
        (fun q => q.1 == foldMin p.1 (ps.map (fun q => q.1)) + i) = [] := hempty
    constructor
    · show ((((p :: ps).filter
          (fun q => q.1 == foldMin p.1 (ps.map (fun q => q.1)) + i)).map
          (fun q => q.2)).filter (fun a => decide (0 < a))).sum = 0
      rw [hempty2]
      rfl
    · show |((((p :: ps).filter
          (fun q => q.1 == foldMin p.1 (ps.map (fun q => q.1)) + i)).map
          (fun q => q.2)).filter (fun a => decide (a < 0))).sum| = 0
      rw [hempty2]
      simp

theorem monthly_trends_complete_witness :
    ((get_monthly_trends dfW).map MonthBucket.key) = List.range' 10 4 ∧
    List.Pairwise (· < ·) ((get_monthly_trends dfW).map MonthBucket.key) ∧
    ∀ b ∈ get_monthly_trends dfW,
      (datedPairs dfW).filter (fun q => q.1 == b.key) = [] →
      b.income = 0 ∧ b.expense = 0 := by
  have h := monthly_trends_complete dfW (10, 5) [(13, -3)] rfl
  exact ⟨h.1, h.2.1, h.2.2⟩
